import Mathlib

/-!
Verification development for the header-preprocessing pipeline of
make_cffi.py (python-zstandard's CFFI declaration generator).

The embedding works on byte strings modelled as `List Nat` (each element a
byte value).  Lines are byte lists; a whole file or stream is a byte list.
All definitions are direct translations of the Python source:

  - `rewrite_line` / `preprocess_rewrite`: the line-rewrite pass at the top
    of `preprocess` (drop stddef/zstd.h includes and the static-linking
    guard define, replace the limits.h include, strip export-API tokens).
  - `preprocess_run`: the temp-file / subprocess part of `preprocess`,
    modelled as an event trace so resource-cleanup claims can be stated.
  - `normalize_line` / `normalize_output`: the `normalize_output` function.
  - `define_match` / `reinject_line` / `reinject_lines`: the manual
    object-like-macro reinjection pass inside `get_ffi` (the DEFINE regex).
  - `linemarker_match` / `discoverHeaders`: system-mode header discovery
    (the `include_re` regex over preprocessor line markers).
  - `assembleFromSources` / `headerSources` / `pipeline`: the final
    assembly (join, drop blank lines, join) feeding `ffi.cdef`.
  - `decodeLatin1`: the final `.decode("latin1")` step.

The external C preprocessor subprocess is modelled as an explicit function
parameter `cpp : List Nat → List Nat` (bytes in, bytes out), as the claims
direct.  Python's `bytes.splitlines` (splits on LF, CR, CRLF only) and
`bytes.strip` (ASCII whitespace) are modelled exactly.
-/

/-- Byte string literal helper: the list of byte values of an ASCII string. -/
def bstr (s : String) : List Nat := s.toList.map Char.toNat

/-- ASCII whitespace bytes, the set stripped by Python `bytes.strip()`. -/
def isSpaceByte (b : Nat) : Bool :=
  b == 32 || b == 9 || b == 10 || b == 13 || b == 11 || b == 12

/-- Python `bytes.strip()`: remove ASCII whitespace from both ends. -/
def pyStrip (l : List Nat) : List Nat :=
  ((l.dropWhile isSpaceByte).reverse.dropWhile isSpaceByte).reverse

/-- Python `bytes.splitlines()`: split on LF, CRLF or lone CR; no trailing
empty line after a final terminator; empty input gives no lines. -/
def splitLines : List Nat → List (List Nat)
  | [] => []
  | 10 :: rest => [] :: splitLines rest
  | 13 :: 10 :: rest => [] :: splitLines rest
  | 13 :: rest => [] :: splitLines rest
  | c :: rest =>
    match splitLines rest with
    | [] => [[c]]
    | l :: ls => (c :: l) :: ls

/-- Python `b"\n".join(...)`. -/
def joinLines : List (List Nat) → List Nat
  | [] => []
  | [l] => l
  | l :: l2 :: ls => l ++ 10 :: joinLines (l2 :: ls)

/-- Python `pat in line` for byte strings: contiguous substring test. -/
def hasSubstring (pat : List Nat) : List Nat → Bool
  | [] => pat.isPrefixOf []
  | c :: rest => pat.isPrefixOf (c :: rest) || hasSubstring pat rest

/- Byte-string constants appearing in `preprocess`'s rewrite pass. -/

def stddefTok : List Nat := bstr "#include <stddef.h>"
def zstdhTok : List Nat := bstr "#include \"zstd.h\""
def guardTok : List Nat := bstr "#define ZSTD_STATIC_LINKING_ONLY"
def limitsTok : List Nat := bstr "#include <limits.h>"
def intMaxLine : List Nat := bstr "#define INT_MAX 2147483647\n"
def apiTok1 : List Nat := bstr "ZSTDLIB_API"
def apiTok2 : List Nat := bstr "ZSTDLIB_STATIC_API"
def apiTok3 : List Nat := bstr "ZDICTLIB_STATIC_API"

/-- One step of the export-macro stripping loop: `line[len(tok):]` when the
line starts with `tok`, otherwise the line unchanged. -/
def stripTok (tok line : List Nat) : List Nat :=
  if tok.isPrefixOf line then line.drop tok.length else line

/-- The `for prefix in (...)` loop of `preprocess`, in source order. -/
def stripApiToks (line : List Nat) : List Nat :=
  stripTok apiTok3 (stripTok apiTok2 (stripTok apiTok1 line))

/-- The per-line rewrite of `preprocess` (lines 61-101 of make_cffi.py):
`none` when the line is skipped by `continue`, otherwise the rewritten
line.  All tests are `startswith` tests, as in the source. -/
def rewrite_line (line : List Nat) : Option (List Nat) :=
  if stddefTok.isPrefixOf line || zstdhTok.isPrefixOf line
      || guardTok.isPrefixOf line then
    none
  else
    some (stripApiToks (if limitsTok.isPrefixOf line then intMaxLine else line))

/-- The whole rewrite pass over the raw header lines (as Python's file
iteration yields them, line terminators included). -/
def preprocess_rewrite (content : List (List Nat)) : List (List Nat) :=
  content.filterMap rewrite_line

/- The subprocess / temp-file part of `preprocess`, as an event trace. -/

/-- Filesystem / process events performed by `preprocess` after the rewrite:
temp-file creation (`tempfile.mkstemp`), the write and close of that file,
the successful spawn of the preprocessor, and the `os.unlink` in `finally`. -/
inductive FsEvent where
  | mkstempEv
  | writeEv
  | closeEv
  | spawnEv
  | unlinkEv
deriving DecidableEq, Repr

/-- The environment a `preprocess` invocation runs in: whether each fallible
OS call succeeds, the preprocessor's exit status, and the preprocessor
itself as a fixed function from input bytes to output bytes. -/
structure PreprocessEnv where
  writeOk : Bool
  closeOk : Bool
  spawnOk : Bool
  exitCode : Nat
  cpp : List Nat → List Nat

/-- Trace semantics of `preprocess` (lines 103-126 of make_cffi.py).
`mkstemp`, `os.write` and `os.close` run before the `try:` block; the
`finally: os.unlink` covers only the `Popen`/`communicate`/exit-status
region.  Result `none` models an exception propagating to the caller. -/
def preprocess_run (env : PreprocessEnv) (content : List (List Nat)) :
    List FsEvent × Option (List Nat) :=
  let rewritten := (preprocess_rewrite content).flatten
  if env.writeOk = false then
    ([FsEvent.mkstempEv], none)
  else if env.closeOk = false then
    ([FsEvent.mkstempEv, FsEvent.writeEv], none)
  else if env.spawnOk = false then
    ([FsEvent.mkstempEv, FsEvent.writeEv, FsEvent.closeEv, FsEvent.unlinkEv],
      none)
  else if env.exitCode ≠ 0 then
    ([FsEvent.mkstempEv, FsEvent.writeEv, FsEvent.closeEv, FsEvent.spawnEv,
      FsEvent.unlinkEv], none)
  else
    ([FsEvent.mkstempEv, FsEvent.writeEv, FsEvent.closeEv, FsEvent.spawnEv,
      FsEvent.unlinkEv], some (env.cpp rewritten))

/- normalize_output -/

def visTok : List Nat := bstr "__attribute__ ((visibility (\"default\"))) "
def depTok : List Nat := bstr "__attribute__((deprecated"
def declTok : List Nat := bstr "__declspec(deprecated("
def unusedTok : List Nat := bstr "__attribute__((__unused__))"

/-- The reassignment at the top of `normalize_output`'s loop body: strip
one visibility wrapper when the line starts with it. -/
def visStrip (line : List Nat) : List Nat :=
  if visTok.isPrefixOf line then line.drop visTok.length else line

/-- The per-line rules of `normalize_output` (lines 129-143): strip one
visibility wrapper when the line starts with it, then drop the line when it
starts with the GCC deprecation or unused marker, or contains (anywhere)
the MSVC `__declspec(deprecated(` marker. -/
def normalize_line (line : List Nat) : Option (List Nat) :=
  if depTok.isPrefixOf (visStrip line) then none
  else if hasSubstring declTok (visStrip line) then none
  else if unusedTok.isPrefixOf (visStrip line) then none
  else some (visStrip line)

/-- `normalize_output`: split the preprocessor output into lines, apply the
per-line rules, rejoin with LF. -/
def normalize_output (output : List Nat) : List Nat :=
  joinLines ((splitLines output).filterMap normalize_line)

/- Macro reinjection (the DEFINE regex pass inside get_ffi). -/

/-- A byte matched by the regex class `[a-zA-Z0-9_]`. -/
def isIdentByte (b : Nat) : Bool :=
  (48 ≤ b && b ≤ 57) || (65 ≤ b && b ≤ 90) || (97 ≤ b && b ≤ 122) || b == 95

/-- Python `re.match` of `DEFINE = ^\#define ([a-zA-Z0-9_]+) ` against a
line, returning group(1) (the macro name) on success.  The greedy
identifier run must be non-empty and be followed by a space byte. -/
def define_match (line : List Nat) : Option (List Nat) :=
  if (bstr "#define ").isPrefixOf line then
    let rest := line.drop (bstr "#define ").length
    let name := rest.takeWhile isIdentByte
    if name.isEmpty then none
    else if (rest.drop name.length).head? = some 32 then some name
    else none
  else none

/-- group(0) of a successful DEFINE match: the literal `#define `, the
name, and the matched trailing space. -/
def group0 (name : List Nat) : List Nat := bstr "#define " ++ name ++ [32]

/-- The placeholder emitted for a qualifying macro: `m.group(0) + b" ..."`. -/
def placeholderOf (name : List Nat) : List Nat := group0 name ++ bstr " ..."

/-- The name filter of the reinjection pass, as one predicate: not the
static-linking guard and not on the two-element denylist. -/
def allowedName (name : List Nat) : Bool :=
  !(name == bstr "ZSTD_STATIC_LINKING_ONLY")
    && !(name == bstr "ZSTD_LIB_VERSION")
    && !(name == bstr "ZSTD_VERSION_STRING")

/-- The body of the reinjection loop (lines 216-231 of make_cffi.py) for a
single raw header line: strip, match the DEFINE regex, skip the guard and
the denylist, else emit `group(0) + " ..."`. -/
def reinject_line (rawLine : List Nat) : Option (List Nat) :=
  match define_match (pyStrip rawLine) with
  | none => none
  | some name =>
    if name == bstr "ZSTD_STATIC_LINKING_ONLY" then none
    else if name == bstr "ZSTD_LIB_VERSION"
        || name == bstr "ZSTD_VERSION_STRING" then none
    else some (group0 name ++ bstr " ...")

/-- All placeholders reinjected for one header, in line order. -/
def reinject_lines (content : List (List Nat)) : List (List Nat) :=
  content.filterMap reinject_line

/- System-mode header discovery. -/

/-- A byte matched by the regex class `\d`. -/
def isDigitByte (b : Nat) : Bool := 48 ≤ b && b ≤ 57

/-- Python `re.match` of `include_re = ^# \d+ "([^"]+/(?:zstd|zdict)\.h)"`
against one line of preprocessor output, returning group(1) (the header
path).  The group runs to the first closing quote and must end in
`/zstd.h` or `/zdict.h` with a non-empty `[^"]+` part before the suffix. -/
def linemarker_match (line : List Nat) : Option (List Nat) :=
  match line with
  | 35 :: 32 :: rest =>
    let digits := rest.takeWhile isDigitByte
    if digits.isEmpty then none
    else
      match rest.drop digits.length with
      | 32 :: 34 :: rest2 =>
        let path := rest2.takeWhile (fun b => !(b == 34))
        if ((rest2.drop path.length).head? == some 34)
            && (((bstr "/zstd.h").isSuffixOf path && 8 ≤ path.length)
               || ((bstr "/zdict.h").isSuffixOf path && 9 ≤ path.length)) then
          some path
        else none
      | _ => none
  | _ => none

/-- System-mode discovery: the distinct matched paths.  The source builds
`list({...})`, a set whose iteration order is unspecified; the model keeps
first occurrences in line order (emptiness and membership agree with any
set order). -/
def discoverHeaders (markerLines : List (List Nat)) : List (List Nat) :=
  (markerLines.filterMap linemarker_match).dedup

/- Final assembly (lines 233-235). -/

/-- Lines 233-235 of make_cffi.py: join the collected sources with LF,
split into lines, keep only lines with non-empty `strip()`, rejoin. -/
def assembleFromSources (sources : List (List Nat)) : List Nat :=
  joinLines (((splitLines (joinLines sources)).filter
    (fun l => !(pyStrip l).isEmpty)))

/-- The sources contributed by one header: the normalized preprocessor
output followed by the reinjected macro placeholders, as appended to the
`sources` list inside `get_ffi`'s header loop. -/
def headerSources (cpp : List Nat → List Nat) (content : List (List Nat)) :
    List (List Nat) :=
  normalize_output (cpp (preprocess_rewrite content).flatten)
    :: reinject_lines content

/-- The whole rewrite / preprocess / normalize / reinject / assemble chain
of `get_ffi`, over a list of header contents (each a list of raw lines),
with the preprocessor as a fixed function. -/
def pipeline (cpp : List Nat → List Nat)
    (headers : List (List (List Nat))) : List Nat :=
  assembleFromSources ((headers.map (headerSources cpp)).flatten)

/-- System mode of `get_ffi`: discover headers from preprocessor line
markers, read each, run the pipeline.  The `Except` layer records where a
configuration error could surface to the caller; the source raises nothing
on this path, so only `Except.ok` is ever produced. -/
def get_ffi_system (cpp : List Nat → List Nat)
    (readHeader : List Nat → List (List Nat))
    (markerLines : List (List Nat)) : Except String (List Nat) :=
  Except.ok (pipeline cpp ((discoverHeaders markerLines).map readHeader))

/-- All elements are genuine byte values.  Python `bytes` objects satisfy
this by construction; the model states it explicitly. -/
def bytesBelow (l : List Nat) : Prop := ∀ b ∈ l, b < 256

instance (l : List Nat) : Decidable (bytesBelow l) := by
  unfold bytesBelow; infer_instance

/-- The final `.decode("latin1")`: total on genuine bytes (values below
256), each byte mapped to the code point of equal value. -/
def decodeLatin1 (bs : List Nat) : Option (List Char) :=
  if bs.all (fun b => b < 256) then some (bs.map Char.ofNat) else none

/-! General lemmas about the byte-string model: how `splitLines` and
`joinLines` interact, and prefix composition. -/

theorem splitLines_sublist (s : List Nat) : ∀ l ∈ splitLines s, List.Sublist l s := by
  induction s using splitLines.induct with
  | case1 => intro l h; simp [splitLines] at h
  | case2 rest ih =>
    intro l h
    rw [splitLines] at h
    rcases List.mem_cons.mp h with h | h
    · subst h; exact List.nil_sublist _
    · exact (ih l h).cons 10
  | case3 rest ih =>
    intro l h
    rw [splitLines] at h
    rcases List.mem_cons.mp h with h | h
    · subst h; exact List.nil_sublist _
    · exact ((ih l h).cons 10).cons 13
  | case4 rest hne ih =>
    intro l h
    rw [splitLines] at h
    case x_1 => exact hne
    rcases List.mem_cons.mp h with h | h
    · subst h; exact List.nil_sublist _
    · exact ((ih l h).cons 13)
  | case5 c rest h1 h2 h3 heq ih =>
    intro l h
    rw [splitLines] at h
    case x_1 => exact fun h => absurd h h1
    case x_2 => exact h2
    case x_3 => exact fun h => absurd h h3
    rw [heq] at h
    rcases List.mem_cons.mp h with h | h
    · subst h; exact (List.nil_sublist rest).cons₂ c
    · simp at h
  | case6 c rest h1 h2 h3 l0 ls0 heq ih =>
    intro l h
    rw [splitLines] at h
    case x_1 => exact fun h => absurd h h1
    case x_2 => exact h2
    case x_3 => exact fun h => absurd h h3
    rw [heq] at h
    rcases List.mem_cons.mp h with h | h
    · subst h
      have := ih l0 (by rw [heq]; exact List.mem_cons_self _ _)
      exact this.cons₂ c
    · have := ih l (by rw [heq]; exact List.mem_cons_of_mem _ h)
      exact this.cons c

theorem splitLines_single (l : List Nat) (hne : l ≠ []) (h10 : 10 ∉ l) (h13 : 13 ∉ l) :
    splitLines l = [l] := by
  induction l with
  | nil => exact absurd rfl hne
  | cons c l' ih =>
    have hc10 : c ≠ 10 := fun h => h10 (h ▸ List.mem_cons_self _ _)
    have hc13 : c ≠ 13 := fun h => h13 (h ▸ List.mem_cons_self _ _)
    rw [splitLines]
    case x_1 => exact fun h => absurd h hc10
    case x_2 => exact fun _ h => absurd h hc13
    case x_3 => exact fun h => absurd h hc13
    cases l' with
    | nil => simp [splitLines]
    | cons d l'' =>
      rw [ih (by simp) (fun h => h10 (List.mem_cons_of_mem _ h))
        (fun h => h13 (List.mem_cons_of_mem _ h))]

theorem splitLines_append_nl (l t : List Nat) (h10 : 10 ∉ l) (h13 : 13 ∉ l) :
    splitLines (l ++ 10 :: t) = l :: splitLines t := by
  induction l with
  | nil => rw [List.nil_append, splitLines]
  | cons c l' ih =>
    have hc10 : c ≠ 10 := fun h => h10 (h ▸ List.mem_cons_self _ _)
    have hc13 : c ≠ 13 := fun h => h13 (h ▸ List.mem_cons_self _ _)
    rw [List.cons_append, splitLines]
    case x_1 => exact fun h => absurd h hc10
    case x_2 => exact fun _ h => absurd h hc13
    case x_3 => exact fun h => absurd h hc13
    rw [ih (fun h => h10 (List.mem_cons_of_mem _ h))
      (fun h => h13 (List.mem_cons_of_mem _ h))]

theorem splitLines_joinLines (ls : List (List Nat))
    (h : ∀ l ∈ ls, l ≠ [] ∧ 10 ∉ l ∧ 13 ∉ l) :
    splitLines (joinLines ls) = ls := by
  induction ls with
  | nil => rfl
  | cons l ls' ih =>
    cases ls' with
    | nil =>
      obtain ⟨h1, h2, h3⟩ := h l (List.mem_cons_self _ _)
      rw [joinLines, splitLines_single l h1 h2 h3]
    | cons l2 ls'' =>
      obtain ⟨h1, h2, h3⟩ := h l (List.mem_cons_self _ _)
      rw [joinLines, splitLines_append_nl l _ h2 h3,
        ih (fun x hx => h x (List.mem_cons_of_mem _ hx))]

theorem mem_splitLines_joinLines (ls : List (List Nat))
    (h : ∀ l ∈ ls, 10 ∉ l ∧ 13 ∉ l) :
    ∀ l' ∈ splitLines (joinLines ls), l' ∈ ls ∨ l' = [] := by
  induction ls with
  | nil => intro l' h'; rw [joinLines] at h'; simp [splitLines] at h'
  | cons l ls' ih =>
    cases ls' with
    | nil =>
      intro l' h'
      rw [joinLines] at h'
      by_cases hl : l = []
      · subst hl; simp [splitLines] at h'
      · obtain ⟨h2, h3⟩ := h l (List.mem_cons_self _ _)
        rw [splitLines_single l hl h2 h3] at h'
        simp at h'
        subst h'; exact Or.inl (List.mem_cons_self _ _)
    | cons l2 ls'' =>
      intro l' h'
      obtain ⟨h2, h3⟩ := h l (List.mem_cons_self _ _)
      rw [joinLines, splitLines_append_nl l _ h2 h3] at h'
      rcases List.mem_cons.mp h' with h' | h'
      · subst h'; exact Or.inl (List.mem_cons_self _ _)
      · rcases ih (fun x hx => h x (List.mem_cons_of_mem _ hx)) l' h' with hc | hc
        · exact Or.inl (List.mem_cons_of_mem _ hc)
        · exact Or.inr hc

theorem mem_joinLines (ls : List (List Nat)) (b : Nat) (h : b ∈ joinLines ls) :
    (∃ l ∈ ls, b ∈ l) ∨ b = 10 := by
  induction ls with
  | nil => rw [joinLines] at h; simp at h
  | cons l ls' ih =>
    cases ls' with
    | nil =>
      rw [joinLines] at h
      exact Or.inl ⟨l, List.mem_cons_self _ _, h⟩
    | cons l2 ls'' =>
      rw [joinLines] at h
      rcases List.mem_append.mp h with h | h
      · exact Or.inl ⟨l, List.mem_cons_self _ _, h⟩
      · rcases List.mem_cons.mp h with h | h
        · exact Or.inr h
        · rcases ih h with ⟨x, hx, hb⟩ | hb
          · exact Or.inl ⟨x, List.mem_cons_of_mem _ hx, hb⟩
          · exact Or.inr hb

theorem isPrefixOf_append_drop : ∀ (p l q : List Nat),
    p.isPrefixOf l = true → q.isPrefixOf (l.drop p.length) = true →
    (p ++ q).isPrefixOf l = true := by
  intro p
  induction p with
  | nil => intro l q _ h2; simpa using h2
  | cons a p' ih =>
    intro l q h1 h2
    cases l with
    | nil => simp [List.isPrefixOf] at h1
    | cons b l' =>
      simp only [List.isPrefixOf, Bool.and_eq_true, beq_iff_eq] at h1
      simp only [List.cons_append, List.isPrefixOf, Bool.and_eq_true, beq_iff_eq]
      exact ⟨h1.1, ih l' q h1.2 (by simpa using h2)⟩

theorem splitLines_no_nl (s : List Nat) :
    ∀ l ∈ splitLines s, 10 ∉ l ∧ 13 ∉ l := by
  induction s using splitLines.induct with
  | case1 => intro l h; simp [splitLines] at h
  | case2 rest ih =>
    intro l h
    rw [splitLines] at h
    rcases List.mem_cons.mp h with h | h
    · subst h; simp
    · exact ih l h
  | case3 rest ih =>
    intro l h
    rw [splitLines] at h
    rcases List.mem_cons.mp h with h | h
    · subst h; simp
    · exact ih l h
  | case4 rest hne ih =>
    intro l h
    rw [splitLines] at h
    case x_1 => exact hne
    rcases List.mem_cons.mp h with h | h
    · subst h; simp
    · exact ih l h
  | case5 c rest h1 h2 h3 heq ih =>
    intro l h
    rw [splitLines] at h
    case x_1 => exact fun h => absurd h h1
    case x_2 => exact h2
    case x_3 => exact fun h => absurd h h3
    rw [heq] at h
    rcases List.mem_cons.mp h with h | h
    · subst h
      constructor
      · intro hm; exact h1 (List.mem_singleton.mp hm).symm
      · intro hm; exact h3 (List.mem_singleton.mp hm).symm
    · simp at h
  | case6 c rest h1 h2 h3 l0 ls0 heq ih =>
    intro l h
    rw [splitLines] at h
    case x_1 => exact fun h => absurd h h1
    case x_2 => exact h2
    case x_3 => exact fun h => absurd h h3
    rw [heq] at h
    rcases List.mem_cons.mp h with h | h
    · subst h
      have hl0 := ih l0 (by rw [heq]; exact List.mem_cons_self _ _)
      constructor
      · intro hm
        rcases List.mem_cons.mp hm with h' | h'
        · exact h1 h'.symm
        · exact hl0.1 h'
      · intro hm
        rcases List.mem_cons.mp hm with h' | h'
        · exact h3 h'.symm
        · exact hl0.2 h'
    · exact ih l (by rw [heq]; exact List.mem_cons_of_mem _ h)

/-! Byte-level values of the token constants, and generic facts about
`stripTok`, used when reasoning under a free remainder variable. -/

theorem stddefTok_bytes : stddefTok = [35, 105, 110, 99, 108, 117, 100, 101, 32, 60, 115, 116, 100, 100, 101, 102, 46, 104, 62] := by decide

theorem zstdhTok_bytes : zstdhTok = [35, 105, 110, 99, 108, 117, 100, 101, 32, 34, 122, 115, 116, 100, 46, 104, 34] := by decide

theorem guardTok_bytes : guardTok = [35, 100, 101, 102, 105, 110, 101, 32, 90, 83, 84, 68, 95, 83, 84, 65, 84, 73, 67, 95, 76, 73, 78, 75, 73, 78, 71, 95, 79, 78, 76, 89] := by decide

theorem limitsTok_bytes : limitsTok = [35, 105, 110, 99, 108, 117, 100, 101, 32, 60, 108, 105, 109, 105, 116, 115, 46, 104, 62] := by decide

theorem apiTok1_bytes : apiTok1 = [90, 83, 84, 68, 76, 73, 66, 95, 65, 80, 73] := by decide

theorem apiTok2_bytes : apiTok2 = [90, 83, 84, 68, 76, 73, 66, 95, 83, 84, 65, 84, 73, 67, 95, 65, 80, 73] := by decide

theorem apiTok3_bytes : apiTok3 = [90, 68, 73, 67, 84, 76, 73, 66, 95, 83, 84, 65, 84, 73, 67, 95, 65, 80, 73] := by decide

theorem visTok_bytes : visTok = [95, 95, 97, 116, 116, 114, 105, 98, 117, 116, 101, 95, 95, 32, 40, 40, 118, 105, 115, 105, 98, 105, 108, 105, 116, 121, 32, 40, 34, 100, 101, 102, 97, 117, 108, 116, 34, 41, 41, 41, 32] := by decide

theorem isPrefixOf_append_self (tok rest : List Nat) :
    tok.isPrefixOf (tok ++ rest) = true := by
  induction tok with
  | nil => simp
  | cons a t ih => simp [List.isPrefixOf_cons₂, ih]

theorem stripTok_append (tok rest : List Nat) : stripTok tok (tok ++ rest) = rest := by
  unfold stripTok
  rw [if_pos (isPrefixOf_append_self tok rest), List.drop_left]

theorem stripTok_skip (tok line : List Nat) (h : tok.isPrefixOf line = false) :
    stripTok tok line = line := by
  simp [stripTok, h]


/-! Claim theorems. -/

/-- Claim C3, amended: `preprocess` drops an input line if and only if the
line starts with (not: is exactly) one of the three byte strings
`#include <stddef.h>`, `#include "zstd.h"`,
`#define ZSTD_STATIC_LINKING_ONLY`; no other line is dropped. -/
theorem C3_drop_iff_startswith (line : List Nat) :
    rewrite_line line = none ↔
      (stddefTok.isPrefixOf line || zstdhTok.isPrefixOf line
        || guardTok.isPrefixOf line) = true := by
  unfold rewrite_line
  split
  · simp_all
  · simp_all

/-- Claim C3 counterexample: a line that merely starts with the stddef
include (with a trailing comment) is dropped although it is not exactly
one of the three listed lines (with or without a trailing newline). -/
theorem C3_counterexample :
    rewrite_line (bstr "#include <stddef.h> /* dup */\n") = none ∧
    bstr "#include <stddef.h> /* dup */\n" ∉
      [stddefTok, zstdhTok, guardTok,
        stddefTok ++ [10], zstdhTok ++ [10], guardTok ++ [10]] := by
  decide

/-- Claim C7, amended: once the temporary file has been written and closed
successfully, every exit path of `preprocess` (spawn failure, non-zero
preprocessor exit, normal return) removes the temporary file. -/
theorem C7_unlink_after_guard (env : PreprocessEnv) (content : List (List Nat))
    (hw : env.writeOk = true) (hc : env.closeOk = true) :
    FsEvent.unlinkEv ∈ (preprocess_run env content).1 := by
  unfold preprocess_run
  rw [if_neg (by simp [hw]), if_neg (by simp [hc])]
  split
  · simp
  · split <;> simp

/-- Witness for C7 at a concrete environment (non-zero exit status). -/
theorem C7_witness :
    FsEvent.unlinkEv ∈
      (preprocess_run ⟨true, true, true, 1, fun _ => []⟩ []).1 :=
  C7_unlink_after_guard _ _ rfl rfl

/-- Claim C7 counterexample: when `os.write` fails (an exception between
the temp file's creation and the `try:` block), the file is created but
never unlinked, so it outlives the invocation. -/
theorem C7_counterexample :
    FsEvent.mkstempEv ∈
      (preprocess_run ⟨false, true, true, 0, fun _ => []⟩ []).1 ∧
    FsEvent.unlinkEv ∉
      (preprocess_run ⟨false, true, true, 0, fun _ => []⟩ []).1 := by
  decide

/-- Claim C9: with the preprocessor modelled as a fixed function, the whole
rewrite / normalize / reinject / assemble chain is a pure function of the
header contents, so two runs on equal header contents yield byte-identical
assembled text. -/
theorem C9_deterministic (cpp : List Nat → List Nat)
    (headers1 headers2 : List (List (List Nat)))
    (h : headers1 = headers2) :
    pipeline cpp headers1 = pipeline cpp headers2 := by
  rw [h]

/-- Witness for C9 at a concrete header list. -/
theorem C9_witness :
    pipeline (fun x => x) [[bstr "#define A 1\n"]]
      = pipeline (fun x => x) [[bstr "#define A 1\n"]] :=
  C9_deterministic _ _ _ rfl

/-- Claim C2, amended: when system-mode discovery matches zero line-marker
paths, `get_ffi` raises nothing: it proceeds with the empty header list and
produces empty declaration text. -/
theorem C2_empty_headers_no_error (cpp : List Nat → List Nat)
    (readHeader : List Nat → List (List Nat)) (markerLines : List (List Nat))
    (h : markerLines.filterMap linemarker_match = []) :
    get_ffi_system cpp readHeader markerLines = Except.ok [] := by
  unfold get_ffi_system discoverHeaders
  rw [h]
  rfl

/-- Witness for C2 at concrete preprocessor output with no marker lines. -/
theorem C2_witness :
    get_ffi_system (fun x => x) (fun _ => []) [bstr "int x;"]
      = Except.ok [] :=
  C2_empty_headers_no_error _ _ _ (by decide)

/-- Claim C2 counterexample: on preprocessor output whose lines match no
header path, discovery returns the empty list and `get_ffi` returns
normally (an `Except.ok`, not an error). -/
theorem C2_counterexample :
    discoverHeaders [bstr "int x;"] = [] ∧
    get_ffi_system (fun x => x) (fun _ => []) [bstr "int x;"]
      = Except.ok [] :=
  ⟨rfl, rfl⟩

/-- Per-line form of the reinjection pass: the skip conditions of the
source are exactly the `allowedName` filter. -/
theorem reinject_line_eq (l : List Nat) :
    reinject_line l = (define_match (pyStrip l)).bind
      (fun n => if allowedName n then some (placeholderOf n) else none) := by
  unfold reinject_line allowedName placeholderOf
  cases define_match (pyStrip l) with
  | none => rfl
  | some n =>
    by_cases h1 : n = bstr "ZSTD_STATIC_LINKING_ONLY"
    · simp [h1]
    · by_cases h2 : n = bstr "ZSTD_LIB_VERSION"
      · simp [h1, h2]
      · by_cases h3 : n = bstr "ZSTD_VERSION_STRING"
        · simp [h1, h2, h3]
        · simp [h1, h2, h3]

/-- Claim C1, amended: per header, the reinjected placeholder lines are
exactly one line for each raw line whose stripped text matches the DEFINE
pattern with an allowed name (not the static-linking guard, not
denylisted), in line order; each placeholder is the matched text
`#define NAME ` followed by ` ...` (so two spaces before the ellipsis);
guard and denylisted macros produce no placeholder. -/
theorem C1_macro_fidelity (content : List (List Nat)) :
    reinject_lines content =
      (((content.map (fun l => pyStrip l)).filterMap define_match).filter
        allowedName).map placeholderOf := by
  induction content with
  | nil => rfl
  | cons l rest ih =>
    simp only [reinject_lines] at ih ⊢
    rw [List.filterMap_cons, reinject_line_eq l, List.map_cons,
      List.filterMap_cons]
    cases hd : define_match (pyStrip l) with
    | none => simpa using ih
    | some n =>
      by_cases ha : allowedName n = true
      · simp [ha, List.filter_cons, ih]
      · simp [ha, List.filter_cons, ih]

/-- Witness for C1 at a concrete header. -/
theorem C1_witness :
    reinject_lines [bstr "#define FOO 1\n", bstr "#define ZSTD_LIB_VERSION x\n"]
      = (((([bstr "#define FOO 1\n", bstr "#define ZSTD_LIB_VERSION x\n"].map
          (fun l => pyStrip l)).filterMap define_match).filter
            allowedName).map placeholderOf) :=
  C1_macro_fidelity _

/-- Claim C1 counterexample: for a header defining FOO, the assembled
output's placeholder line is `#define FOO  ...` (the matched `#define FOO `
text plus ` ...`, hence two spaces); the literal text `FOO ...` (single
space) occurs nowhere in the assembled output. -/
theorem C1_counterexample :
    pipeline (fun _ => []) [[bstr "#define FOO 1\n"]]
      = bstr "#define FOO  ..." ∧
    hasSubstring (bstr "FOO ...")
      (pipeline (fun _ => []) [[bstr "#define FOO 1\n"]]) = false := by
  decide

/-- Claim C4, amended: a line beginning with one of the export-macro
tokens has exactly that token removed; the byte that followed the token
(the separating space) is kept, so `ZSTDLIB_API int f(void);` becomes
` int f(void);` with a leading space.  The remainder must not itself start
with one of the tokens tried later in the loop. -/
theorem C4_api_token_stripped (rest : List Nat)
    (h2 : apiTok2.isPrefixOf rest = false)
    (h3 : apiTok3.isPrefixOf rest = false) :
    rewrite_line (apiTok1 ++ rest) = some rest ∧
    rewrite_line (apiTok2 ++ rest) = some rest ∧
    rewrite_line (apiTok3 ++ rest) = some rest := by
  refine ⟨?_, ?_, ?_⟩
  · have n1 : stddefTok.isPrefixOf (apiTok1 ++ rest) = false := by
      rw [stddefTok_bytes, apiTok1_bytes]; simp [List.isPrefixOf_cons₂]
    have n2 : zstdhTok.isPrefixOf (apiTok1 ++ rest) = false := by
      rw [zstdhTok_bytes, apiTok1_bytes]; simp [List.isPrefixOf_cons₂]
    have n3 : guardTok.isPrefixOf (apiTok1 ++ rest) = false := by
      rw [guardTok_bytes, apiTok1_bytes]; simp [List.isPrefixOf_cons₂]
    have n4 : limitsTok.isPrefixOf (apiTok1 ++ rest) = false := by
      rw [limitsTok_bytes, apiTok1_bytes]; simp [List.isPrefixOf_cons₂]
    unfold rewrite_line stripApiToks
    rw [if_neg (by simp [n1, n2, n3]), if_neg (by simp [n4]),
      stripTok_append, stripTok_skip apiTok2 rest h2, stripTok_skip apiTok3 rest h3]
  · have n1 : stddefTok.isPrefixOf (apiTok2 ++ rest) = false := by
      rw [stddefTok_bytes, apiTok2_bytes]; simp [List.isPrefixOf_cons₂]
    have n2 : zstdhTok.isPrefixOf (apiTok2 ++ rest) = false := by
      rw [zstdhTok_bytes, apiTok2_bytes]; simp [List.isPrefixOf_cons₂]
    have n3 : guardTok.isPrefixOf (apiTok2 ++ rest) = false := by
      rw [guardTok_bytes, apiTok2_bytes]; simp [List.isPrefixOf_cons₂]
    have n4 : limitsTok.isPrefixOf (apiTok2 ++ rest) = false := by
      rw [limitsTok_bytes, apiTok2_bytes]; simp [List.isPrefixOf_cons₂]
    have n5 : apiTok1.isPrefixOf (apiTok2 ++ rest) = false := by
      rw [apiTok1_bytes, apiTok2_bytes]; simp [List.isPrefixOf_cons₂]
    unfold rewrite_line stripApiToks
    rw [if_neg (by simp [n1, n2, n3]), if_neg (by simp [n4]),
      stripTok_skip _ _ n5, stripTok_append, stripTok_skip apiTok3 rest h3]
  · have n1 : stddefTok.isPrefixOf (apiTok3 ++ rest) = false := by
      rw [stddefTok_bytes, apiTok3_bytes]; simp [List.isPrefixOf_cons₂]
    have n2 : zstdhTok.isPrefixOf (apiTok3 ++ rest) = false := by
      rw [zstdhTok_bytes, apiTok3_bytes]; simp [List.isPrefixOf_cons₂]
    have n3 : guardTok.isPrefixOf (apiTok3 ++ rest) = false := by
      rw [guardTok_bytes, apiTok3_bytes]; simp [List.isPrefixOf_cons₂]
    have n4 : limitsTok.isPrefixOf (apiTok3 ++ rest) = false := by
      rw [limitsTok_bytes, apiTok3_bytes]; simp [List.isPrefixOf_cons₂]
    have n5 : apiTok1.isPrefixOf (apiTok3 ++ rest) = false := by
      rw [apiTok1_bytes, apiTok3_bytes]; simp [List.isPrefixOf_cons₂]
    have n6 : apiTok2.isPrefixOf (apiTok3 ++ rest) = false := by
      rw [apiTok2_bytes, apiTok3_bytes]; simp [List.isPrefixOf_cons₂]
    unfold rewrite_line stripApiToks
    rw [if_neg (by simp [n1, n2, n3]), if_neg (by simp [n4]),
      stripTok_skip _ _ n5, stripTok_skip _ _ n6, stripTok_append]

/-- Witness for C4 at the claim's own example line. -/
theorem C4_witness :
    rewrite_line (apiTok1 ++ bstr " int f(void);\n")
        = some (bstr " int f(void);\n") ∧
    rewrite_line (apiTok2 ++ bstr " int f(void);\n")
        = some (bstr " int f(void);\n") ∧
    rewrite_line (apiTok3 ++ bstr " int f(void);\n")
        = some (bstr " int f(void);\n") :=
  C4_api_token_stripped (bstr " int f(void);\n") (by decide) (by decide)

/-- Claim C4 counterexample: the rewritten form of
`ZSTDLIB_API int f(void);` is ` int f(void);` (leading space kept), not
`int f(void);`: the rewrite output contains no line equal to the latter. -/
theorem C4_counterexample :
    preprocess_rewrite [bstr "ZSTDLIB_API int f(void);\n"]
      = [bstr " int f(void);\n"] ∧
    bstr "int f(void);" ∉ preprocess_rewrite [bstr "ZSTDLIB_API int f(void);\n"] ∧
    bstr "int f(void);\n" ∉ preprocess_rewrite [bstr "ZSTDLIB_API int f(void);\n"] := by
  decide

/-- Claim C5, amended: `normalize_output`'s rules are applied per line; a
line that begins with none of the markers and contains no
`__declspec(deprecated(` token passes through byte-for-byte unchanged, and
the MSVC deprecation rule drops a line whenever the line contains that
token anywhere (a substring test, not a begins-with test). -/
theorem C5_per_line_rules (line : List Nat)
    (hv : visTok.isPrefixOf line = false)
    (hd : depTok.isPrefixOf line = false)
    (hu : unusedTok.isPrefixOf line = false) :
    (hasSubstring declTok line = true → normalize_line line = none) ∧
    (hasSubstring declTok line = false → normalize_line line = some line) := by
  unfold normalize_line
  have hvs : visStrip line = line := by simp [visStrip, hv]
  rw [hvs]
  constructor
  · intro h; simp [hd, h, hu]
  · intro h; simp [hd, h, hu]

/-- Witness for C5 at concrete lines for both implications. -/
theorem C5_witness :
    normalize_line (bstr "void f(void) __declspec(deprecated(\"x\"));")
        = none ∧
    normalize_line (bstr "size_t f(void);") = some (bstr "size_t f(void);") :=
  ⟨(C5_per_line_rules _ (by decide) (by decide) (by decide)).1 (by decide),
   (C5_per_line_rules _ (by decide) (by decide) (by decide)).2 (by decide)⟩

/-- Claim C5 counterexample: a line containing the MSVC deprecation token
in its middle is dropped even though it does not begin with the token,
refuting the begins-with-only reading. -/
theorem C5_counterexample :
    normalize_line (bstr "void f(void) __declspec(deprecated(\"gone\")));")
      = none ∧
    declTok.isPrefixOf (bstr "void f(void) __declspec(deprecated(\"gone\")));")
      = false := by
  decide

/-- Shape and test outcomes of a kept line of `normalize_output`: a kept
line is the once-visibility-stripped input line, and it failed all three
drop tests. -/
theorem normalize_line_some (l0 l' : List Nat) (h : normalize_line l0 = some l') :
    l' = visStrip l0 ∧ depTok.isPrefixOf l' = false ∧
    hasSubstring declTok l' = false ∧ unusedTok.isPrefixOf l' = false := by
  unfold normalize_line at h
  split at h
  next hdep => exact absurd h (by simp)
  next hdep =>
    split at h
    next hdecl => exact absurd h (by simp)
    next hdecl =>
      split at h
      next hun => exact absurd h (by simp)
      next hun =>
        injection h with h
        subst h
        exact ⟨rfl, by rw [← Bool.not_eq_true]; simpa using hdep,
          by simpa using hdecl, by rw [← Bool.not_eq_true]; simpa using hun⟩

/-- Claim C6, amended: the normalized output has no line beginning with
the GCC deprecation or unused-attribute marker; and provided no input line
begins with two copies of the visibility wrapper (the source strips the
wrapper exactly once per line), no output line begins with the wrapper. -/
theorem C6_filter_completeness (output : List Nat)
    (hw : ∀ l ∈ splitLines output, (visTok ++ visTok).isPrefixOf l = false) :
    ∀ l ∈ splitLines (normalize_output output),
      depTok.isPrefixOf l = false ∧ unusedTok.isPrefixOf l = false ∧
        visTok.isPrefixOf l = false := by
  intro l hl
  unfold normalize_output at hl
  have hksnl : ∀ x ∈ (splitLines output).filterMap normalize_line,
      10 ∉ x ∧ 13 ∉ x := by
    intro x hx
    obtain ⟨l0, hl0, hx0⟩ := List.mem_filterMap.mp hx
    have hnl := splitLines_no_nl _ l0 hl0
    rw [(normalize_line_some l0 x hx0).1]
    unfold visStrip
    split
    · exact ⟨fun hm => hnl.1 (List.drop_subset _ _ hm),
        fun hm => hnl.2 (List.drop_subset _ _ hm)⟩
    · exact hnl
  rcases mem_splitLines_joinLines _ hksnl l hl with hmem | hnil
  · obtain ⟨l0, hl0, hx0⟩ := List.mem_filterMap.mp hmem
    obtain ⟨hshape, hdep, hdecl, hun⟩ := normalize_line_some l0 l hx0
    refine ⟨hdep, hun, ?_⟩
    unfold visStrip at hshape
    by_cases hv0 : visTok.isPrefixOf l0 = true
    · rw [if_pos hv0] at hshape
      by_contra hvp
      have hvp : visTok.isPrefixOf l = true := by simpa using hvp
      rw [hshape] at hvp
      have hdouble : (visTok ++ visTok).isPrefixOf l0 = true :=
        isPrefixOf_append_drop _ _ _ hv0 hvp
      rw [hw l0 hl0] at hdouble
      exact Bool.false_ne_true hdouble
    · rw [if_neg hv0] at hshape
      subst hshape
      rw [← Bool.not_eq_true]
      simpa using hv0
  · subst hnil
    refine ⟨by decide, by decide, by decide⟩

/-- Witness for C6 at a concrete preprocessor output. -/
theorem C6_witness :
    depTok.isPrefixOf (bstr "int x;") = false ∧
    unusedTok.isPrefixOf (bstr "int x;") = false ∧
    visTok.isPrefixOf (bstr "int x;") = false :=
  C6_filter_completeness (bstr "__attribute__((deprecated)) a;\nint x;")
    (by decide) (bstr "int x;") (by decide)

/-- Claim C6 counterexample: for the input line consisting of the
visibility wrapper twice, the normalized output retains a line that still
begins with the wrapper (only one copy is stripped), so the universal
claim over all input byte streams fails. -/
theorem C6_counterexample :
    visTok ∈ splitLines (normalize_output (visTok ++ visTok)) ∧
    visTok.isPrefixOf visTok = true := by
  decide

/-- Claim C8: the final assembled declaration text, split into lines,
contains no line that is empty after trimming ASCII whitespace, for every
combination of source fragments (normalized bodies and placeholders). -/
theorem C8_no_blank_lines (sources : List (List Nat)) :
    ∀ l ∈ splitLines (assembleFromSources sources), pyStrip l ≠ [] := by
  intro l hl
  unfold assembleFromSources at hl
  have hprops : ∀ x ∈ (splitLines (joinLines sources)).filter
      (fun l => !(pyStrip l).isEmpty), x ≠ [] ∧ 10 ∉ x ∧ 13 ∉ x := by
    intro x hx
    obtain ⟨hmem, hkeep⟩ := List.mem_filter.mp hx
    have hnl := splitLines_no_nl _ x hmem
    refine ⟨?_, hnl.1, hnl.2⟩
    intro hx0
    subst hx0
    simp [pyStrip] at hkeep
  rw [splitLines_joinLines _ hprops] at hl
  have hkeep := (List.mem_filter.mp hl).2
  simpa using hkeep

/-- Witness for C8 at concrete sources containing a blank fragment. -/
theorem C8_witness : pyStrip (bstr "int a;") ≠ [] :=
  C8_no_blank_lines [bstr "int a;", bstr "  \t"] (bstr "int a;") (by decide)

theorem pyStrip_subset (l : List Nat) : ∀ b ∈ pyStrip l, b ∈ l := by
  intro b hb
  unfold pyStrip at hb
  rw [List.mem_reverse] at hb
  have hb2 := List.dropWhile_subset _ hb
  rw [List.mem_reverse] at hb2
  exact List.dropWhile_subset _ hb2

theorem define_match_name_subset (line name : List Nat)
    (h : define_match line = some name) : ∀ b ∈ name, b ∈ line := by
  unfold define_match at h
  dsimp only at h
  split at h
  next hp =>
    split at h
    next hne => exact absurd h (by simp)
    next hne =>
      split at h
      next hsp =>
        injection h with h
        subst h
        intro b hb
        exact List.drop_subset _ _ (List.takeWhile_subset _ hb)
      next hsp => exact absurd h (by simp)
  next hp => exact absurd h (by simp)

theorem reinject_line_bytes (l p : List Nat) (h : reinject_line l = some p) :
    ∀ b ∈ p, b ∈ l ∨ b < 256 := by
  rw [reinject_line_eq] at h
  cases hd : define_match (pyStrip l) with
  | none => rw [hd] at h; exact absurd h (by simp)
  | some name =>
    rw [hd] at h
    simp only [Option.some_bind] at h
    split at h
    · injection h with h
      subst h
      intro b hb
      unfold placeholderOf group0 at hb
      rcases List.mem_append.mp hb with hb | hb
      · rcases List.mem_append.mp hb with hb | hb
        · rcases List.mem_append.mp hb with hb | hb
          · exact Or.inr ((by decide : ∀ x ∈ bstr "#define ", x < 256) b hb)
          · exact Or.inl (pyStrip_subset l b (define_match_name_subset _ _ hd b hb))
        · exact Or.inr ((by decide : ∀ x ∈ ([32] : List Nat), x < 256) b hb)
      · exact Or.inr ((by decide : ∀ x ∈ bstr " ...", x < 256) b hb)
    · exact absurd h (by simp)

theorem normalize_line_subset (l0 l' : List Nat) (h : normalize_line l0 = some l') :
    ∀ b ∈ l', b ∈ l0 := by
  rw [(normalize_line_some l0 l' h).1]
  unfold visStrip
  split
  · exact fun b hb => List.drop_subset _ _ hb
  · exact fun b _ => by assumption

theorem normalize_output_bytes (out : List Nat) :
    ∀ b ∈ normalize_output out, b ∈ out ∨ b = 10 := by
  intro b hb
  unfold normalize_output at hb
  rcases mem_joinLines _ b hb with ⟨l', hl', hbl⟩ | h10
  · obtain ⟨l0, hl0, hx0⟩ := List.mem_filterMap.mp hl'
    exact Or.inl ((splitLines_sublist _ l0 hl0).subset
      (normalize_line_subset l0 l' hx0 b hbl))
  · exact Or.inr h10

/-- Every byte of the assembled text comes from the preprocessor output,
from a raw header line, from the reinjection constants, or is the LF used
to join lines. -/
theorem pipeline_bytes_below (cpp : List Nat → List Nat)
    (headers : List (List (List Nat)))
    (hcpp : ∀ x, bytesBelow (cpp x))
    (hh : ∀ content ∈ headers, ∀ l ∈ content, bytesBelow l) :
    bytesBelow (pipeline cpp headers) := by
  intro b hb
  unfold pipeline assembleFromSources at hb
  rcases mem_joinLines _ b hb with ⟨l, hl, hbl⟩ | h10
  · have hl' := (List.mem_filter.mp hl).1
    have hbj : b ∈ joinLines ((headers.map (headerSources cpp)).flatten) :=
      (splitLines_sublist _ l hl').subset hbl
    rcases mem_joinLines _ b hbj with ⟨s, hs, hbs⟩ | h10
    · obtain ⟨group, hgroup, hsg⟩ := List.mem_flatten.mp hs
      obtain ⟨content, hcontent, hgeq⟩ := List.mem_map.mp hgroup
      subst hgeq
      unfold headerSources at hsg
      rcases List.mem_cons.mp hsg with hsg | hsg
      · subst hsg
        rcases normalize_output_bytes _ b hbs with hmem | h10
        · exact hcpp _ b hmem
        · omega
      · obtain ⟨raw, hraw, hrj⟩ := List.mem_filterMap.mp hsg
        rcases reinject_line_bytes raw s hrj b hbs with hmem | hlt
        · exact hh content hcontent raw hraw b hmem
        · exact hlt
    · omega
  · omega

/-- Claim C10: the assembled cdef text is decoded with total single-byte
latin-1 decoding; whenever the preprocessor emits genuine bytes (values
below 256) and the header files consist of bytes, the decode step
succeeds, whatever those bytes are. -/
theorem C10_latin1_total (cpp : List Nat → List Nat)
    (headers : List (List (List Nat)))
    (hcpp : ∀ x, bytesBelow (cpp x))
    (hh : ∀ content ∈ headers, ∀ l ∈ content, bytesBelow l) :
    (decodeLatin1 (pipeline cpp headers)).isSome = true := by
  unfold decodeLatin1
  rw [if_pos]
  · rfl
  · rw [List.all_eq_true]
    intro b hb
    simpa using pipeline_bytes_below cpp headers hcpp hh b hb

/-- Witness for C10 at a concrete preprocessor function and header. -/
theorem C10_witness :
    (decodeLatin1 (pipeline (fun _ => bstr "int x;")
      [[bstr "#define A 1\n"]])).isSome = true :=
  C10_latin1_total _ _ (fun _ => by decide) (by decide)
